import Mathlib

/-!
Shallow embedding of the customs-cli import lifecycle client
(row mapper, import client, reconciler, orchestrator).

Go strings are modelled as lists of characters (`Str`).  Go slices of
strings are `List Str`.  A Go function returning `(T, error)` becomes
`Except E T`; a Go nil-pointer dereference (a runtime panic) is modelled
by an `Option` whose `none` marks the panic.

The repository holds two variants of the client; only the pair
part_001/part_002 type-checks as one Go package (the other main calls
waitForProcessing with three arguments while its companion takes four,
and builds an ImportItemRequest literal whose fields the companion type
lacks), so that pair is embedded as the program.  The superseded client
variant differs in one place relevant here: its prepareApiKey helper,
embedded below as well for comparison.
-/

namespace Customs

/-- Go strings, modelled as lists of characters. -/
abbrev Str := List Char

/-- The whitespace test used by Go strings.TrimSpace (ASCII part of
unicode.IsSpace, which covers every character appearing here). -/
def isSpace (c : Char) : Bool :=
  c = ' ' || c = '\t' || c = '\n' || c = '\x0b' || c = '\x0c' || c = '\r'

/-- Go strings.TrimSpace: drop leading and trailing whitespace. -/
def trimSpace (s : Str) : Str :=
  ((s.dropWhile isSpace).reverse.dropWhile isSpace).reverse

/-- Go strings.ToLower (ASCII case mapping, which covers the fixed
column names and territory codes compared here). -/
def toLower (s : Str) : Str :=
  s.map Char.toLower

/-- Go strings.EqualFold on the ASCII strings compared here:
equality up to case. -/
def equalFold (a b : Str) : Bool :=
  toLower a == toLower b

/-- Go strings.Split(s, ",").  Always returns at least one part;
splitting the empty string yields one empty part, like Go. -/
def splitOnComma : Str → List Str
  | [] => [[]]
  | c :: rest =>
    match splitOnComma rest with
    | [] => [[]]
    | h :: t => if c = ',' then [] :: h :: t else (c :: h) :: t

/-- The customs territory constants of main.go / part_001. -/
def customsTerritoryEU : Str := ['e', 'u']

/-- The customs territory constant for Norway. -/
def customsTerritoryNO : Str := ['n', 'o']

/-- allowedCustomsTerritories of part_001. -/
def allowedCustomsTerritories : List Str :=
  [customsTerritoryEU, customsTerritoryNO]

/-- The fatal validation errors raised by the row mapper (part_001);
each constructor carries exactly the datum interpolated into the Go
error message. -/
inductive MapError
  | missingColumn (name : Str)
  | unsupportedTerritory (territory : Str)
  | invalidGrossMass (id : Str)
  | invalidNetMass (id : Str)
  deriving DecidableEq, Repr

/-- The loop body of prepareCustomsTerritories (part_001 lines
296-307): normalise each comma-separated entry with ToLower then
TrimSpace and reject the first entry outside the allowed set. -/
def prepareTerritoriesAux : List Str → Except MapError (List Str)
  | [] => .ok []
  | t :: rest =>
    let t := trimSpace (toLower t)
    if allowedCustomsTerritories.contains t then
      (prepareTerritoriesAux rest).map (t :: ·)
    else
      .error (.unsupportedTerritory t)

/-- prepareCustomsTerritories of part_001: split the cell on commas and
validate every entry. -/
def prepareCustomsTerritories (s : Str) : Except MapError (List Str) :=
  prepareTerritoriesAux (splitOnComma s)

-- Sanity checks against the source semantics.
example : prepareCustomsTerritories (" EU, no".data) =
    .ok [customsTerritoryEU, customsTerritoryNO] := rfl
example : prepareCustomsTerritories ("se".data) =
    .error (.unsupportedTerritory ("se".data)) := rfl
example : prepareCustomsTerritories ("".data) =
    .error (.unsupportedTerritory [])  := rfl
example : prepareCustomsTerritories ("eu,".data) =
    .error (.unsupportedTerritory [])  := rfl

/-- The scan of getColumnIndex (part_001 lines 253-261), carrying the
running position: compare the sought name with each trimmed cell,
case-insensitively, returning the position of the first match. -/
def getColumnIndexAux (name : Str) : Nat → List Str → Option Nat
  | _, [] => none
  | i, cell :: rest =>
    if equalFold name (trimSpace cell) then some i
    else getColumnIndexAux name (i + 1) rest

/-- getColumnIndex of part_001: position of the first header cell whose
trimmed content equals the name up to case, or none. -/
def getColumnIndex (row : List Str) (name : Str) : Option Nat :=
  getColumnIndexAux name 0 row

/-- getMandatoryColumnIndex of part_001 lines 244-251: like
getColumnIndex but a missing column is the fatal error
`provided file has no %q column` naming that column. -/
def getMandatoryColumnIndex (row : List Str) (name : Str) : Except MapError Nat :=
  match getColumnIndex row name with
  | none => .error (.missingColumn name)
  | some i => .ok i

/-- A (territory, code) pair of the fetch response
(CustomsCodesResponse of part_002). -/
structure CustomsCodesResponse where
  customsTerritory : Str
  code : Str
  deriving DecidableEq, Repr

/-- A per-item fetch result (ImportItemResponse of part_002).  Only the
fields read by the embedded operations are carried: the identifier and
the customsCodes array (field Tarics); the remaining response fields
(name, description, status, timestamps, ...) are never read by the
reconciler. -/
structure ImportItemResponse where
  id : Str
  tarics : List CustomsCodesResponse
  deriving DecidableEq, Repr

/-- getTaricByTerritory of part_002 lines 68-76: first customsCodes
entry for the territory; Go returns a nil pointer (here none) when the
territory has no entry. -/
def getTaricByTerritory (i : ImportItemResponse) (territory : Str) : Option CustomsCodesResponse :=
  i.tarics.find? (fun t => t.customsTerritory == territory)

/-- The padding loop of part_001 lines 210-213: append empty cells
until the row has at least n cells. -/
def padRow (row : List Str) (n : Nat) : List Str :=
  if h : row.length < n then padRow (row ++ [[]]) n else row
termination_by n - row.length
decreasing_by simp only [List.length_append, List.length_cons, List.length_nil]; omega

/-- The per-item body of the reconcile loop (part_001 lines 210-218):
pad the matched row to len(headings)+1 cells, then assign the two
result cells from getTaricByTerritory.  Go dereferences the returned
pointers unconditionally (taricEU.Code, taricNO.Code), so a missing
territory entry is a nil-pointer dereference panic, modelled as none. -/
def reconcileItemRow (headingsLen iResultEU iResultNO : Nat)
    (row : List Str) (item : ImportItemResponse) : Option (List Str) :=
  let row := padRow row (headingsLen + 1)
  match getTaricByTerritory item customsTerritoryEU,
        getTaricByTerritory item customsTerritoryNO with
  | some tEU, some tNO => some ((row.set iResultEU tEU.code).set iResultNO tNO.code)
  | _, _ => none

/-- The scan of getRowByItemID (part_001 lines 234-242), carrying the
running position.  The loop starts at the heading row (position 0) and
reads row[idIndex] without a bounds check; the outer none marks the Go
out-of-range panic on a row with at most idIndex cells, the inner
Option is the found/not-found result of the Go function. -/
def getRowByItemIDAux (idIndex : Nat) (itemID : Str) :
    Nat → List (List Str) → Option (Option (Nat × List Str))
  | _, [] => some none
  | i, row :: rest =>
    match row[idIndex]? with
    | none => none
    | some cell =>
      if itemID = cell then some (some (i, row))
      else getRowByItemIDAux idIndex itemID (i + 1) rest

/-- getRowByItemID of part_001: scan all rows, heading row included,
for the first row whose cell at idIndex equals the item identifier. -/
def getRowByItemID (rows : List (List Str)) (idIndex : Nat) (itemID : Str) :
    Option (Option (Nat × List Str)) :=
  getRowByItemIDAux idIndex itemID 0 rows

example : getRowByItemID [["id".data], ["A1".data]] 0 ("A1".data) =
    some (some (1, ["A1".data])) := rfl
example : getRowByItemID [["id".data], []] 0 ("A1".data) = none := rfl
example : getRowByItemID [["A1".data]] 0 ("A1".data) =
    some (some (0, ["A1".data])) := rfl

/-- ImportItemStatusFailed of part_002. -/
def statusFailed : Str := "failed".data

/-- ImportItemStatusProcessed of part_002. -/
def statusProcessed : Str := "processed".data

/-- The three ways waitForProcessing (part_002 lines 150-193) returns:
ErrFailed on a failed status, nil on a processed status, and
ErrNotProcessed after the tick budget runs out, the last decoded status
document having been printed for diagnostics. -/
inductive PollResult
  | failed
  | processed
  | notProcessed (last : Str)
  deriving DecidableEq, Repr

/-- The polling loop of waitForProcessing, from tick i with n ticks
remaining; last is the previously decoded status document (the zero
value, the empty string, before the first tick).  Each tick issues one
status GET, decoded by the oracle statuses; the result counts the GETs
issued from here on and gives the outcome. -/
def waitFrom (statuses : Nat → Str) : Nat → Nat → Str → Nat × PollResult
  | _, 0, last => (0, .notProcessed last)
  | i, n + 1, _ =>
    let s := statuses i
    if s = statusFailed then (1, .failed)
    else if s = statusProcessed then (1, .processed)
    else
      let r := waitFrom statuses (i + 1) n s
      (r.1 + 1, r.2)

/-- waitForProcessing of part_002: poll once per one-second tick, at
most timeout times, starting from the zero-valued status document. -/
def waitForProcessing (timeout : Nat) (statuses : Nat → Str) : Nat × PollResult :=
  waitFrom statuses 0 timeout []

example : waitForProcessing 3 (fun _ => "pending".data) =
    (3, .notProcessed ("pending".data)) := rfl
example : waitForProcessing 3 (fun i => if i = 1 then statusProcessed else "pending".data) =
    (2, .processed) := rfl
example : waitForProcessing 0 (fun _ => statusProcessed) = (0, .notProcessed []) := rfl

/-- The literal "Bearer " attached in front of the api key. -/
def bearerSp : Str := "Bearer ".data

/-- Whether the second list is an initial segment of the first
(Go strings.HasPrefix, written out elementwise). -/
def startsWithList : Str → Str → Bool
  | _, [] => true
  | [], _ :: _ => false
  | c :: s, p :: ps => c == p && startsWithList s ps

/-- Go strings.TrimPrefix(s, "Bearer "): drop one leading "Bearer "
when present, otherwise return s unchanged. -/
def trimBearerOnce (s : Str) : Str :=
  if startsWithList s bearerSp then s.drop bearerSp.length else s

/-- prepareApiKey of the superseded client variant (client.go lines
218-220): strip any leading "Bearer " and re-add the literal. -/
def prepareApiKey (s : Str) : Str :=
  bearerSp ++ trimBearerOnce s

/-- The Authorization header value built by sendImportRequest,
getImportResponse and waitForProcessing of part_002 (lines 93, 117 and
160): the literal "Bearer " concatenated with the supplied api key,
with no stripping. -/
def authHeaderFlat (apiKey : Str) : Str :=
  bearerSp ++ apiKey

example : authHeaderFlat ("k".data) = "Bearer k".data := rfl
example : authHeaderFlat ("Bearer k".data) = "Bearer Bearer k".data := rfl
example : prepareApiKey ("Bearer k".data) = "Bearer k".data := rfl

/-- The column names looked up by main (part_001 lines 103-126). -/
def colID : Str := "id".data

/-- Mandatory column: name. -/
def colName : Str := "name".data

/-- Mandatory column: description. -/
def colDescription : Str := "description".data

/-- Mandatory column: customs territories. -/
def colCustomsTerritories : Str := "customs territories".data

/-- Optional column: category. -/
def colCategory : Str := "category".data

/-- Optional column: subcategory. -/
def colSubcategory : Str := "subcategory".data

/-- Optional column: country of origin. -/
def colCountryOfOrigin : Str := "country of origin".data

/-- Optional column: gross mass. -/
def colGrossMass : Str := "gross mass".data

/-- Optional column: net mass. -/
def colNetMass : Str := "net mass".data

/-- Optional column: weight unit. -/
def colWeightUnit : Str := "weight unit".data

/-- Optional column: model. -/
def colModel : Str := "model".data

/-- Appended result column for the eu territory (part_001 line 130). -/
def colResultEU : Str := "result EU".data

/-- Appended result column for the no territory (part_001 line 132). -/
def colResultNO : Str := "result NO".data

/-- The four mandatory column names, in the order main checks them. -/
def mandatoryColumns : List Str :=
  [colID, colName, colDescription, colCustomsTerritories]

/-- The column positions resolved by main from the headings row,
together with the headings extended by the two result columns
(part_001 lines 102-132). -/
structure HeaderInfo where
  iID : Nat
  iName : Nat
  iDescription : Nat
  iCustomsTerritories : Nat
  iCategory : Option Nat
  iSubcategory : Option Nat
  iCountryOfOrigin : Option Nat
  iGrossMass : Option Nat
  iNetMass : Option Nat
  iWeightUnit : Option Nat
  iModel : Option Nat
  iResultEU : Nat
  iResultNO : Nat
  headings : List Str
  deriving Repr

/-- The header-mapping phase of main (part_001 lines 102-132): resolve
the four mandatory columns (fatal on the first one missing, in check
order), resolve the optional columns, then append the two result
columns to the headings. -/
def mapHeaders (headings : List Str) : Except MapError HeaderInfo := do
  let iID ← getMandatoryColumnIndex headings colID
  let iName ← getMandatoryColumnIndex headings colName
  let iDescription ← getMandatoryColumnIndex headings colDescription
  let iCustomsTerritories ← getMandatoryColumnIndex headings colCustomsTerritories
  let iCategory := getColumnIndex headings colCategory
  let iSubcategory := getColumnIndex headings colSubcategory
  let iCountryOfOrigin := getColumnIndex headings colCountryOfOrigin
  let iGrossMass := getColumnIndex headings colGrossMass
  let iNetMass := getColumnIndex headings colNetMass
  let iWeightUnit := getColumnIndex headings colWeightUnit
  let iModel := getColumnIndex headings colModel
  let iResultEU := headings.length
  let headings1 := headings ++ [colResultEU]
  let iResultNO := headings1.length
  let headings2 := headings1 ++ [colResultNO]
  pure { iID, iName, iDescription, iCustomsTerritories, iCategory, iSubcategory,
         iCountryOfOrigin, iGrossMass, iNetMass, iWeightUnit, iModel,
         iResultEU, iResultNO, headings := headings2 }

/-- The failure modes of one run of main; Go runtime panics
(index out of range, nil-pointer dereference) terminate the process
like a log.Fatalln does and appear here as error values. -/
inductive RunError
  | tooFewRows
  | mapError (e : MapError)
  | indexPanic
  | nilDerefPanic
  | submitFailed
  | processingFailed
  | notProcessed (last : Str)
  | fetchFailed
  | rowNotFound (id : Str)
  deriving DecidableEq, Repr

/-- getString of part_001 lines 263-269: the empty string for an
absent column, otherwise the unchecked read row[i] (indexPanic models
the Go out-of-range panic). -/
def getStringAt (row : List Str) (i : Option Nat) : Except RunError Str :=
  match i with
  | none => .ok []
  | some i =>
    match row[i]? with
    | none => .error .indexPanic
    | some v => .ok v

/-- getStringPtr of part_001 lines 271-277: nil for an absent column,
otherwise a pointer to the unchecked read row[i]. -/
def getStringPtrAt (row : List Str) (i : Option Nat) : Except RunError (Option Str) :=
  match i with
  | none => .ok none
  | some i =>
    match row[i]? with
    | none => .error .indexPanic
    | some v => .ok (some v)

/-- How getFloatPtr (part_001 lines 279-294) ends when it does not
return a value: the unchecked read panics, or strconv.ParseFloat
rejects the cell. -/
inductive GetFloatError
  | indexPanic
  | parseFailed
  deriving DecidableEq, Repr

/-- getFloatPtr of part_001 lines 279-294.  The numeric grammar of
strconv.ParseFloat is abstracted as the oracle parseFloatOk; the parsed
value is carried as its raw cell text, which no embedded operation
reads numerically. -/
def getFloatPtrAt (parseFloatOk : Str → Bool) (row : List Str) (i : Option Nat) :
    Except GetFloatError (Option Str) :=
  match i with
  | none => .ok none
  | some i =>
    match row[i]? with
    | none => .error .indexPanic
    | some v =>
      if v = [] then .ok none
      else if parseFloatOk v then .ok (some v) else .error .parseFailed

/-- One element of the submitted batch (ImportItemRequest of
part_002). -/
structure ImportItemRequest where
  id : Str
  name : Str
  description : Str
  customsTerritories : List Str
  category : Option Str
  subcategory : Option Str
  countryOfOrigin : Option Str
  grossMassRaw : Option Str
  netMassRaw : Option Str
  weightUnit : Option Str
  model : Option Str
  deriving DecidableEq, Repr

/-- The per-row body of the mapping loop of main (part_001 lines
144-180): read the mandatory cells, validate the customs territories,
read the optional cells, parse the masses (any parse error becomes the
fatal invalid gross or net mass message naming the row identifier). -/
def buildItem (parseFloatOk : Str → Bool) (hdr : HeaderInfo) (row : List Str) :
    Except RunError ImportItemRequest := do
  let id ← getStringAt row (some hdr.iID)
  let name ← getStringAt row (some hdr.iName)
  let description ← getStringAt row (some hdr.iDescription)
  let customsTerritoriesRaw ← getStringAt row (some hdr.iCustomsTerritories)
  let customsTerritories ←
    match prepareCustomsTerritories customsTerritoriesRaw with
    | .error e => .error (.mapError e)
    | .ok ts => .ok ts
  let category ← getStringPtrAt row hdr.iCategory
  let subcategory ← getStringPtrAt row hdr.iSubcategory
  let countryOfOrigin ← getStringPtrAt row hdr.iCountryOfOrigin
  let grossMassRaw ←
    match getFloatPtrAt parseFloatOk row hdr.iGrossMass with
    | .error .indexPanic => .error .indexPanic
    | .error .parseFailed => .error (.mapError (.invalidGrossMass id))
    | .ok v => .ok v
  let netMassRaw ←
    match getFloatPtrAt parseFloatOk row hdr.iNetMass with
    | .error .indexPanic => .error .indexPanic
    | .error .parseFailed => .error (.mapError (.invalidNetMass id))
    | .ok v => .ok v
  let weightUnit ← getStringPtrAt row hdr.iWeightUnit
  let model ← getStringPtrAt row hdr.iModel
  pure { id, name, description, customsTerritories, category, subcategory,
         countryOfOrigin, grossMassRaw, netMassRaw, weightUnit, model }

/-- The mapping loop of main over the data rows rows[1:], stopping at
the first fatal error like the log.Fatalln calls do. -/
def buildItems (parseFloatOk : Str → Bool) (hdr : HeaderInfo) :
    List (List Str) → Except RunError (List ImportItemRequest)
  | [] => .ok []
  | row :: rest => do
    let item ← buildItem parseFloatOk hdr row
    let items ← buildItems parseFloatOk hdr rest
    pure (item :: items)

/-- One observable effect of a run: a spreadsheet mutation
(SetSheetRow or SaveAs) or a network request batch (submit, the
polling loop, fetch). -/
inductive Event
  | writeHeadings
  | submit
  | poll
  | fetch
  | writeRow (excelRow : Nat)
  | save
  deriving DecidableEq, Repr

/-- The per-item body of the reconcile loop of main (part_001 lines
202-223): locate the original row by identifier (fatal when not
found), pad it, write the two result cells, and give back the
one-based excel row number written by SetSheetRow. -/
def reconcileItem (hdr : HeaderInfo) (rows : List (List Str)) (item : ImportItemResponse) :
    Except RunError (Nat × List Str) :=
  match getRowByItemID rows hdr.iID item.id with
  | none => .error .indexPanic
  | some none => .error (.rowNotFound item.id)
  | some (some (rowIndex, row)) =>
    match reconcileItemRow hdr.headings.length hdr.iResultEU hdr.iResultNO row item with
    | none => .error .nilDerefPanic
    | some newRow => .ok (rowIndex + 1, newRow)

/-- The reconcile loop over the fetched items, recording one writeRow
event per SetSheetRow call and stopping at the first fatal error. -/
def reconcileLoop (hdr : HeaderInfo) (rows : List (List Str)) :
    List ImportItemResponse → List Event × Option RunError
  | [] => ([], none)
  | item :: rest =>
    match reconcileItem hdr rows item with
    | .error e => ([], some e)
    | .ok (excelRow, _) =>
      let r := reconcileLoop hdr rows rest
      (.writeRow excelRow :: r.1, r.2)

/-- The environment of one run: the outcomes of the network calls and
the float grammar, which live outside the program. -/
structure Oracles where
  parseFloatOk : Str → Bool
  submitOk : Bool
  timeout : Nat
  statuses : Nat → Str
  fetchOk : Bool
  fetchItems : List ImportItemResponse

/-- main of part_001 after flag handling, as a function from the
spreadsheet rows and the run environment to the sequence of observable
effects and the fatal outcome (none on success).  The stage order is
that of the source: row-count check, header mapping, SetSheetRow of
the extended headings, the mapping loop, submit, the polling loop,
fetch, the reconcile loop, SaveAs. -/
def mainRun (rows : List (List Str)) (o : Oracles) : List Event × Option RunError :=
  if rows.length < 2 then ([], some .tooFewRows)
  else
    match mapHeaders (rows.headD []) with
    | .error e => ([], some (.mapError e))
    | .ok hdr =>
      match buildItems o.parseFloatOk hdr rows.tail with
      | .error e => ([.writeHeadings], some e)
      | .ok _ =>
        if o.submitOk = false then ([.writeHeadings, .submit], some .submitFailed)
        else
          match (waitForProcessing o.timeout o.statuses).2 with
          | .failed => ([.writeHeadings, .submit, .poll], some .processingFailed)
          | .notProcessed last =>
            ([.writeHeadings, .submit, .poll], some (.notProcessed last))
          | .processed =>
            if o.fetchOk = false then
              ([.writeHeadings, .submit, .poll, .fetch], some .fetchFailed)
            else
              let r := reconcileLoop hdr rows o.fetchItems
              match r.2 with
              | some e => ([.writeHeadings, .submit, .poll, .fetch] ++ r.1, some e)
              | none => ([.writeHeadings, .submit, .poll, .fetch] ++ r.1 ++ [.save], none)

/-! Concrete fixtures used by witnesses and counterexamples. -/

/-- A well-formed two-row sheet: the four mandatory columns and one
data row with identifier A1 requesting territory no. -/
def rowsA : List (List Str) :=
  [["id".data, "name".data, "description".data, "customs territories".data],
   ["A1".data, "w".data, "d".data, "no".data]]

/-- An environment where every network call succeeds and the fetch
returns no items at all. -/
def oracleEmptyFetch : Oracles :=
  ⟨fun _ => true, true, 1, fun _ => statusProcessed, true, []⟩

/-- A fetched item for A1 carrying a code for both territories. -/
def itemA1 : ImportItemResponse :=
  ⟨"A1".data, [⟨customsTerritoryEU, "8471.30".data⟩, ⟨customsTerritoryNO, "8471.30".data⟩]⟩

/-- An environment where every network call succeeds and the fetch
returns the single item for A1. -/
def oracleItemA1 : Oracles :=
  ⟨fun _ => true, true, 1, fun _ => statusProcessed, true, [itemA1]⟩

/-- A fetched item for A2 whose result set has a code for the no
territory only, as in a run that requested just that territory. -/
def itemA2 : ImportItemResponse :=
  ⟨"A2".data, [⟨customsTerritoryNO, "8703.23".data⟩]⟩

/-- A well-formed sheet whose single data row is A2 requesting only
territory no. -/
def rowsB : List (List Str) :=
  [["id".data, "name".data, "description".data, "customs territories".data],
   ["A2".data, "car".data, "d".data, "no".data]]

/-- An environment where every network call succeeds and the fetch
returns the single item for A2. -/
def oracleItemA2 : Oracles :=
  ⟨fun _ => true, true, 1, fun _ => statusProcessed, true, [itemA2]⟩

/-! Claim theorems. -/

/-- C1.  The claim says a territory with no result entry yields an
empty string in its output cell rather than an error.  On the code,
getTaricByTerritory returns a nil pointer for the absent territory and
the reconciler dereferences it unconditionally, a runtime panic: at
the fetched item for A2 (a code for no only), the eu lookup is none
and the per-item reconcile step panics instead of writing any cell,
and the whole run aborts with that panic. -/
theorem claim_C1 :
    getTaricByTerritory itemA2 customsTerritoryEU = none
    ∧ getTaricByTerritory itemA2 customsTerritoryNO =
        some ⟨customsTerritoryNO, "8703.23".data⟩
    ∧ reconcileItemRow 6 4 5 ("A2".data :: ["car".data, "d".data, "no".data]) itemA2 = none
    ∧ (mainRun rowsB oracleItemA2).2 = some .nilDerefPanic := by
  refine ⟨rfl, rfl, rfl, rfl⟩

/-- Helper: a list always begins with itself followed by anything. -/
theorem startsWithList_append (p s : Str) : startsWithList (p ++ s) p = true := by
  induction p with
  | nil => cases s <;> rfl
  | cons c p ih => simp [startsWithList, ih]

/-- C2 counterexample.  In the compiled client (part_002), the
Authorization header is the literal "Bearer " concatenated with the
supplied key verbatim, so a key pasted with the prefix produces a
different header from the bare key. -/
theorem counterexample_C2 :
    authHeaderFlat ("Bearer k".data) ≠ authHeaderFlat ("k".data) := by
  decide

/-- C2 amended.  The Submit, Poll and Fetch requests of the compiled
client attach "Bearer " ++ key with no stripping, so only the bare
form yields the header "Bearer <bare-key>"; the stripping behaviour
the claim describes is implemented by prepareApiKey, which lives in
the superseded client variant and does make the bare and prefixed
forms coincide. -/
theorem claim_C2 (k : Str) :
    authHeaderFlat k = bearerSp ++ k
    ∧ (startsWithList k bearerSp = false →
        prepareApiKey (bearerSp ++ k) = prepareApiKey k) := by
  refine ⟨rfl, fun h => ?_⟩
  simp [prepareApiKey, trimBearerOnce, startsWithList_append, h, List.drop_left]

/-- C2 witness: the amended statement at the concrete key k. -/
theorem claim_C2_witness :
    authHeaderFlat ("k".data) = bearerSp ++ "k".data
    ∧ prepareApiKey (bearerSp ++ "k".data) = prepareApiKey ("k".data) :=
  ⟨(claim_C2 ("k".data)).1, (claim_C2 ("k".data)).2 (by decide)⟩

/-- Helper for C9: when every row has more than idIndex cells the scan
never reads out of bounds, from any starting position. -/
theorem getRowByItemIDAux_total (idIndex : Nat) (itemID : Str) :
    ∀ (rows : List (List Str)) (i : Nat),
      (∀ r ∈ rows, idIndex < r.length) →
      ∃ res, getRowByItemIDAux idIndex itemID i rows = some res := by
  intro rows
  induction rows with
  | nil => exact fun i _ => ⟨none, rfl⟩
  | cons r rest ih =>
    intro i h
    have hr : idIndex < r.length := h r (List.mem_cons_self r rest)
    cases hg : r[idIndex]? with
    | none =>
      rw [List.getElem?_eq_none_iff] at hg
      omega
    | some cell =>
      by_cases hc : itemID = cell
      · exact ⟨some (i, r), by simp [getRowByItemIDAux, hg, hc]⟩
      · obtain ⟨res, hres⟩ := ih (i + 1) (fun q hq => h q (List.mem_cons_of_mem _ hq))
        exact ⟨res, by simp [getRowByItemIDAux, hg, hc, hres]⟩

/-- C9.  The row lookup scans every row starting with the heading row
and reads the cell at idIndex with no bounds check: when every row has
more than idIndex cells the scan is well defined (no panic), and when
the first scanned row has at most idIndex cells the unchecked read is
out of bounds (the none result models the Go panic). -/
theorem claim_C9 (rows : List (List Str)) (idIndex : Nat) (itemID : Str) :
    ((∀ r ∈ rows, idIndex < r.length) →
      ∃ res, getRowByItemID rows idIndex itemID = some res)
    ∧ (∀ r rest, rows = r :: rest → r.length ≤ idIndex →
        getRowByItemID rows idIndex itemID = none) := by
  constructor
  · exact fun h => getRowByItemIDAux_total idIndex itemID rows 0 h
  · intro r rest hrows hlen
    subst hrows
    have hg : r[idIndex]? = none := List.getElem?_eq_none_iff.mpr hlen
    simp [getRowByItemID, getRowByItemIDAux, hg]

/-- C9 witness: the scan succeeds on a sheet whose rows all cover the
id column, and panics when the heading row does not. -/
theorem claim_C9_witness :
    (∃ res, getRowByItemID [["id".data], ["A1".data]] 0 ("A1".data) = some res)
    ∧ getRowByItemID [[], ["A1".data]] 0 ("A1".data) = none := by
  constructor
  · exact (claim_C9 [["id".data], ["A1".data]] 0 ("A1".data)).1 (by decide)
  · exact (claim_C9 [[], ["A1".data]] 0 ("A1".data)).2 [] [["A1".data]] rfl (by decide)

/-- Helper for C3: a polling window of n wholly non-terminal ticks
issues one request per tick and times out reporting the status decoded
on the last tick, whatever the starting tick. -/
theorem waitFrom_nonterminal (statuses : Nat → Str) :
    ∀ (n i : Nat) (last : Str),
      (∀ j, i ≤ j → j < i + n →
        statuses j ≠ statusFailed ∧ statuses j ≠ statusProcessed) →
      waitFrom statuses i n last =
        (n, .notProcessed (if n = 0 then last else statuses (i + n - 1))) := by
  intro n
  induction n with
  | zero => intro i last _; rfl
  | succ m ih =>
    intro i last h
    have hi := h i (le_refl i) (by omega)
    have hrec := ih (i + 1) (statuses i) (fun j hj1 hj2 => h j (by omega) (by omega))
    simp only [waitFrom]
    rw [if_neg hi.1, if_neg hi.2, hrec]
    by_cases hm : m = 0
    · subst hm; simp
    · have he : i + 1 + m - 1 = i + (m + 1) - 1 := by omega
      simp [hm, he]

/-- C3.  When all N configured ticks decode a non-terminal status, the
polling loop issues exactly N status requests (one per tick) and then
returns the timeout outcome (ErrNotProcessed) carrying the last
observed status document. -/
theorem claim_C3 (N : Nat) (statuses : Nat → Str)
    (h : ∀ j, j < N → statuses j ≠ statusFailed ∧ statuses j ≠ statusProcessed) :
    waitForProcessing N statuses =
      (N, .notProcessed (if N = 0 then [] else statuses (N - 1))) := by
  have := waitFrom_nonterminal statuses N 0 [] (fun j _ hj2 => h j (by omega))
  simpa using this

/-- C3 witness: two pending ticks give two requests and a timeout
reporting pending. -/
theorem claim_C3_witness :
    waitForProcessing 2 (fun _ => "pending".data) =
      (2, .notProcessed ("pending".data)) := by
  have := claim_C3 2 (fun _ => "pending".data)
    (fun j _ => ⟨by show ("pending".data ≠ statusFailed); decide,
                 by show ("pending".data ≠ statusProcessed); decide⟩)
  simpa using this

/-- Helper for C5: with k leading non-terminal ticks and a terminal
status on tick k inside the budget, the loop issues exactly k+1
requests and stops on that status, whatever the starting tick. -/
theorem waitFrom_terminal (statuses : Nat → Str) :
    ∀ (k n i : Nat) (last : Str), k < n →
      (∀ j, i ≤ j → j < i + k →
        statuses j ≠ statusFailed ∧ statuses j ≠ statusProcessed) →
      ((statuses (i + k) = statusFailed →
          waitFrom statuses i n last = (k + 1, .failed))
       ∧ (statuses (i + k) = statusProcessed →
          waitFrom statuses i n last = (k + 1, .processed))) := by
  intro k
  induction k with
  | zero =>
    intro n i last hk _
    obtain ⟨m, rfl⟩ : ∃ m, n = m + 1 := ⟨n - 1, by omega⟩
    constructor
    · intro ht
      simp only [Nat.add_zero] at ht
      simp only [waitFrom]
      rw [if_pos ht]
    · intro ht
      simp only [Nat.add_zero] at ht
      have hne : statuses i ≠ statusFailed := by
        rw [ht]; decide
      simp only [waitFrom]
      rw [if_neg hne, if_pos ht]
  | succ kk ih =>
    intro n i last hk h
    obtain ⟨m, rfl⟩ : ∃ m, n = m + 1 := ⟨n - 1, by omega⟩
    have hi := h i (le_refl i) (by omega)
    have hrec := ih m (i + 1) (statuses i) (by omega)
      (fun j hj1 hj2 => h j (by omega) (by omega))
    have he : i + 1 + kk = i + (kk + 1) := by omega
    rw [he] at hrec
    constructor
    · intro ht
      simp only [waitFrom]
      rw [if_neg hi.1, if_neg hi.2, hrec.1 ht]
    · intro ht
      simp only [waitFrom]
      rw [if_neg hi.1, if_neg hi.2, hrec.2 ht]

/-- C5.  The polling loop stops on the first terminal status: with k
non-terminal ticks before tick k inside the budget, exactly k+1 status
requests are issued, a failed status gives the ProcessingFailed
outcome (ErrFailed) and a processed status gives success. -/
theorem claim_C5 (N k : Nat) (statuses : Nat → Str) (hk : k < N)
    (h : ∀ j, j < k → statuses j ≠ statusFailed ∧ statuses j ≠ statusProcessed) :
    (statuses k = statusFailed → waitForProcessing N statuses = (k + 1, .failed))
    ∧ (statuses k = statusProcessed →
        waitForProcessing N statuses = (k + 1, .processed)) := by
  have := waitFrom_terminal statuses k N 0 [] hk (fun j _ hj2 => h j (by omega))
  simpa using this

/-- C5 witness: with a pending tick then a processed tick inside a
five-tick budget, exactly two requests are issued and the poll
succeeds. -/
theorem claim_C5_witness :
    waitForProcessing 5 (fun i => if i = 0 then "pending".data else statusProcessed) =
      (2, .processed) := by
  have := (claim_C5 5 1 (fun i => if i = 0 then "pending".data else statusProcessed)
    (by omega) (fun j hj => by interval_cases j; exact ⟨by decide, by decide⟩)).2
  exact this (by decide)

/-- Helper: the territory loop rejects exactly the first normalised
entry outside the allowed set. -/
theorem prepareTerritoriesAux_firstBad :
    ∀ (l : List Str) (e : Str),
      (l.map (fun t => trimSpace (toLower t))).find?
          (fun t => !(allowedCustomsTerritories.contains t)) = some e →
      prepareTerritoriesAux l = .error (.unsupportedTerritory e) := by
  intro l
  induction l with
  | nil => intro e h; simp at h
  | cons t rest ih =>
    intro e h
    by_cases hb : allowedCustomsTerritories.contains (trimSpace (toLower t)) = true
    · rw [List.map_cons, List.find?_cons_of_neg _ (by simpa using hb)] at h
      have hrec := ih e h
      simp only [prepareTerritoriesAux]
      rw [if_pos hb, hrec]
      rfl
    · have hbf : allowedCustomsTerritories.contains (trimSpace (toLower t)) = false := by
        simpa using hb
      rw [List.map_cons, List.find?_cons_of_pos _ (by simpa using hbf)] at h
      obtain rfl : trimSpace (toLower t) = e := by injection h
      simp only [prepareTerritoriesAux]
      rw [if_neg (by simpa using hbf)]

/-- Helper: the reconcile loop never raises a row-mapper validation
error; its failures are the unmatched-row fatal and the two modelled
panics. -/
theorem reconcileLoop_no_mapError (hdr : HeaderInfo) (rows : List (List Str)) :
    ∀ (items : List ImportItemResponse) (e : MapError),
      (reconcileLoop hdr rows items).2 ≠ some (.mapError e) := by
  intro items
  induction items with
  | nil => intro e h; simp [reconcileLoop] at h
  | cons item rest ih =>
    intro e h
    simp only [reconcileLoop] at h
    cases hri : reconcileItem hdr rows item with
    | error er =>
      rw [hri] at h
      simp only at h
      cases h
      unfold reconcileItem at hri
      cases hg : getRowByItemID rows hdr.iID item.id with
      | none => rw [hg] at hri; simp at hri
      | some found =>
        cases found with
        | none => rw [hg] at hri; simp at hri
        | some p =>
          rw [hg] at hri
          simp only at hri
          cases hrr : reconcileItemRow hdr.headings.length hdr.iResultEU hdr.iResultNO p.2 item with
          | none => rw [hrr] at hri; simp at hri
          | some newRow => rw [hrr] at hri; simp at hri
    | ok p =>
      rw [hri] at h
      simp only at h
      exact ih e h

/-- Helper: a run that dies on a row-mapper validation error has at
most written the headings row: no submission, no data-row write. -/
theorem mainRun_mapError_trace (rows : List (List Str)) (o : Oracles) (e : MapError)
    (h : (mainRun rows o).2 = some (.mapError e)) :
    (mainRun rows o).1 = [] ∨ (mainRun rows o).1 = [Event.writeHeadings] := by
  by_cases h2 : rows.length < 2
  · rw [mainRun, if_pos h2] at h; simp at h
  · cases hm : mapHeaders (rows.headD []) with
    | error me => left; simp only [mainRun, if_neg h2, hm]
    | ok hdr =>
      cases hb : buildItems o.parseFloatOk hdr rows.tail with
      | error be => right; simp only [mainRun, if_neg h2, hm, hb]
      | ok items =>
        exfalso
        simp only [mainRun, if_neg h2, hm, hb] at h
        by_cases hs : o.submitOk = false
        · rw [if_pos hs] at h; simp at h
        · rw [if_neg hs] at h
          cases hp : (waitForProcessing o.timeout o.statuses).2 with
          | failed => rw [hp] at h; simp at h
          | notProcessed last => rw [hp] at h; simp at h
          | processed =>
            rw [hp] at h
            by_cases hf : o.fetchOk = false
            · rw [if_pos hf] at h; simp at h
            · rw [if_neg hf] at h
              simp only at h
              cases hr : (reconcileLoop hdr rows o.fetchItems).2 with
              | none => simp only [hr] at h; simp at h
              | some re =>
                simp only [hr] at h
                simp only [Option.some_inj] at h
                subst h
                exact reconcileLoop_no_mapError hdr rows o.fetchItems e hr

/-- C7.  Splitting the customs-territories cell at commas and
normalising each entry with ToLower and TrimSpace, the first entry
outside the set of allowed territories makes the mapper fail with the
unsupported-territory error naming that entry; a run that fails with
that error never reaches the submission. -/
theorem claim_C7 (s e : Str) (rows : List (List Str)) (o : Oracles) :
    (((splitOnComma s).map (fun t => trimSpace (toLower t))).find?
        (fun t => !(allowedCustomsTerritories.contains t)) = some e →
      prepareCustomsTerritories s = .error (.unsupportedTerritory e))
    ∧ ((mainRun rows o).2 = some (.mapError (.unsupportedTerritory e)) →
        Event.submit ∉ (mainRun rows o).1) := by
  constructor
  · exact fun h => prepareTerritoriesAux_firstBad (splitOnComma s) e h
  · intro h
    rcases mainRun_mapError_trace rows o (.unsupportedTerritory e) h with ht | ht <;>
      rw [ht] <;> simp

/-- A sheet whose single data row declares the unsupported territory
SE (padded and upper-case) alongside a supported one. -/
def rowsBadTerritory : List (List Str) :=
  [["id".data, "name".data, "description".data, "customs territories".data],
   ["A1".data, "w".data, "d".data, " SE,no".data]]

/-- C7 witness: the cell " SE,no" fails naming the normalised entry
se, and the failed run issues no submission. -/
theorem claim_C7_witness :
    prepareCustomsTerritories (" SE,no".data) = .error (.unsupportedTerritory ("se".data))
    ∧ Event.submit ∉ (mainRun rowsBadTerritory oracleEmptyFetch).1 := by
  constructor
  · exact (claim_C7 (" SE,no".data) ("se".data) rowsBadTerritory oracleEmptyFetch).1
      (by decide)
  · exact (claim_C7 (" SE,no".data) ("se".data) rowsBadTerritory oracleEmptyFetch).2
      (by rfl)

/-- Helper: splitting never yields an empty list of parts. -/
theorem splitOnComma_ne_nil : ∀ s : Str, splitOnComma s ≠ [] := by
  intro s
  cases s with
  | nil => simp [splitOnComma]
  | cons c rest =>
    simp only [splitOnComma]
    cases splitOnComma rest with
    | nil => simp
    | cons h t => by_cases hc : c = ',' <;> simp [hc]

/-- Helper: a comma-free string splits into itself alone. -/
theorem splitOnComma_no_comma : ∀ s : Str, (∀ c ∈ s, c ≠ ',') → splitOnComma s = [s] := by
  intro s
  induction s with
  | nil => intro _; rfl
  | cons c rest ih =>
    intro h
    have hrest := ih (fun d hd => h d (List.mem_cons_of_mem c hd))
    have hc : c ≠ ',' := h c (List.mem_cons_self c rest)
    simp [splitOnComma, hrest, hc]

/-- Helper: lower-casing fixes whitespace characters. -/
theorem isSpace_toLower {c : Char} (h : isSpace c = true) : Char.toLower c = c := by
  simp only [isSpace, Bool.or_eq_true, decide_eq_true_eq] at h
  rcases h with ((((h | h) | h) | h) | h) | h <;> subst h <;> decide

/-- Helper: dropping whitespace from an all-whitespace list drops
everything. -/
theorem dropWhile_isSpace_all {s : Str} (h : ∀ c ∈ s, isSpace c = true) :
    s.dropWhile isSpace = [] := by
  induction s with
  | nil => rfl
  | cons c rest ih =>
    have hc := h c (List.mem_cons_self c rest)
    simp [List.dropWhile, hc, ih (fun d hd => h d (List.mem_cons_of_mem c hd))]

/-- Helper: trimming an all-whitespace list gives the empty string. -/
theorem trimSpace_all {s : Str} (h : ∀ c ∈ s, isSpace c = true) :
    trimSpace s = [] := by
  simp [trimSpace, dropWhile_isSpace_all h]

/-- C10.  An empty or all-whitespace customs-territories cell fails
with the unsupported-territory error naming the empty string, and any
successfully mapped territory list is non-empty. -/
theorem claim_C10 (s : Str) :
    ((∀ c ∈ s, isSpace c = true) →
      prepareCustomsTerritories s = .error (.unsupportedTerritory []))
    ∧ (∀ r, prepareCustomsTerritories s = .ok r → r ≠ []) := by
  constructor
  · intro h
    have hnc : ∀ c ∈ s, c ≠ ',' := by
      intro c hc heq
      have hsp := h c hc
      rw [heq] at hsp
      exact absurd hsp (by decide)
    have hs := splitOnComma_no_comma s hnc
    have hlow : ∀ c ∈ toLower s, isSpace c = true := by
      intro c hc
      obtain ⟨d, hd, rfl⟩ := List.mem_map.mp hc
      rw [isSpace_toLower (h d hd)]
      exact h d hd
    have ht : trimSpace (toLower s) = [] := trimSpace_all hlow
    rw [prepareCustomsTerritories, hs]
    simp only [prepareTerritoriesAux]
    rw [ht]
    rfl
  · intro r hr hrn
    subst hrn
    obtain ⟨a, l, hs⟩ : ∃ a l, splitOnComma s = a :: l := by
      cases h : splitOnComma s with
      | nil => exact absurd h (splitOnComma_ne_nil s)
      | cons a l => exact ⟨a, l, rfl⟩
    rw [prepareCustomsTerritories, hs] at hr
    simp only [prepareTerritoriesAux] at hr
    split at hr
    · cases haux : prepareTerritoriesAux l with
      | ok v => rw [haux] at hr; simp [Except.map] at hr
      | error er => rw [haux] at hr; simp [Except.map] at hr
    · simp at hr

/-- C10 witness: a two-space cell fails naming the empty string, and
the mapped list of the cell eu is non-empty. -/
theorem claim_C10_witness :
    prepareCustomsTerritories ("  ".data) = .error (.unsupportedTerritory [])
    ∧ [customsTerritoryEU] ≠ ([] : List Str) :=
  ⟨(claim_C10 ("  ".data)).1 (by decide),
   (claim_C10 ("eu".data)).2 [customsTerritoryEU] rfl⟩

/-- Helper: full characterisation of the header scan from position k:
it returns k plus the offset of the first cell whose trimmed content
matches the name case-insensitively. -/
theorem getColumnIndexAux_some_iff (name : Str) :
    ∀ (row : List Str) (k m : Nat),
      getColumnIndexAux name k row = some m ↔
      ∃ i, m = k + i ∧ i < row.length ∧
        equalFold name (trimSpace (row.getD i [])) = true ∧
        ∀ j, j < i → equalFold name (trimSpace (row.getD j [])) = false := by
  intro row
  induction row with
  | nil =>
    intro k m
    simp [getColumnIndexAux]
  | cons cell rest ih =>
    intro k m
    by_cases hc : equalFold name (trimSpace cell) = true
    · simp only [getColumnIndexAux, if_pos hc]
      constructor
      · intro h
        injection h with h
        exact ⟨0, by omega, by simp, by simpa using hc,
          fun j hj => absurd hj (Nat.not_lt_zero j)⟩
      · rintro ⟨i, rfl, hi, hmatch, hbefore⟩
        cases i with
        | zero => simp
        | succ ii =>
          have h0 := hbefore 0 (Nat.succ_pos ii)
          simp only [List.getD_cons_zero] at h0
          rw [hc] at h0
          cases h0
    · have hcf : equalFold name (trimSpace cell) = false := by simpa using hc
      simp only [getColumnIndexAux, if_neg hc]
      rw [ih (k + 1) m]
      constructor
      · rintro ⟨i, rfl, hi, hmatch, hbefore⟩
        refine ⟨i + 1, by omega, by simpa using hi, by simpa using hmatch, ?_⟩
        intro j hj
        cases j with
        | zero => simpa using hcf
        | succ jj => simpa using hbefore jj (by omega)
      · rintro ⟨i, rfl, hi, hmatch, hbefore⟩
        cases i with
        | zero =>
          simp only [List.getD_cons_zero] at hmatch
          rw [hcf] at hmatch
          cases hmatch
        | succ ii =>
          refine ⟨ii, by omega, by simpa using hi, by simpa using hmatch, ?_⟩
          intro j hj
          simpa using hbefore (j + 1) (by omega)

/-- Helper: the header scan finds nothing exactly when no cell
matches. -/
theorem getColumnIndexAux_none_iff (name : Str) :
    ∀ (row : List Str) (k : Nat),
      getColumnIndexAux name k row = none ↔
      ∀ cell ∈ row, equalFold name (trimSpace cell) = false := by
  intro row
  induction row with
  | nil => intro k; simp [getColumnIndexAux]
  | cons cell rest ih =>
    intro k
    by_cases hc : equalFold name (trimSpace cell) = true
    · simp only [getColumnIndexAux, if_pos hc]
      constructor
      · intro h; exact absurd h (by simp)
      · intro h
        exact absurd (h cell (List.mem_cons_self cell rest)) (by simp [hc])
    · simp only [getColumnIndexAux, if_neg hc]
      rw [ih (k + 1)]
      constructor
      · intro h d hd
        rcases List.mem_cons.mp hd with rfl | hd2
        · simpa using hc
        · exact h d hd2
      · intro h d hd
        exact h d (List.mem_cons_of_mem cell hd)

/-- Helper: a matching cell somewhere means the scan finds a
position. -/
theorem getColumnIndex_isSome (headings : List Str) (name : Str)
    (h : ∃ cell ∈ headings, equalFold name (trimSpace cell) = true) :
    ∃ i, getColumnIndex headings name = some i := by
  cases hg : getColumnIndex headings name with
  | some i => exact ⟨i, rfl⟩
  | none =>
    rw [getColumnIndex, getColumnIndexAux_none_iff] at hg
    obtain ⟨cell, hcell, hm⟩ := h
    rw [hg cell hcell] at hm
    cases hm

/-- Helper: with one mandatory column absent and the others present,
the header mapping fails naming exactly the absent one. -/
theorem mapHeaders_missing (headings : List Str) (c : Str)
    (hmem : c ∈ mandatoryColumns)
    (hothers : ∀ d ∈ mandatoryColumns, d ≠ c →
      ∃ cell ∈ headings, equalFold d (trimSpace cell) = true)
    (habsent : ∀ cell ∈ headings, equalFold c (trimSpace cell) = false) :
    mapHeaders headings = .error (.missingColumn c) := by
  have hcnone : getColumnIndex headings c = none := by
    rw [getColumnIndex, getColumnIndexAux_none_iff]
    exact habsent
  have hmand : getMandatoryColumnIndex headings c = .error (.missingColumn c) := by
    rw [getMandatoryColumnIndex, hcnone]
  simp only [mandatoryColumns, List.mem_cons, List.mem_singleton,
    List.not_mem_nil, or_false] at hmem
  rcases hmem with rfl | rfl | rfl | rfl
  · simp [mapHeaders, hmand, Bind.bind, Except.bind]
  · obtain ⟨i0, h0⟩ := getColumnIndex_isSome headings colID
      (hothers colID (by simp [mandatoryColumns]) (by decide))
    have hok0 : getMandatoryColumnIndex headings colID = .ok i0 := by
      rw [getMandatoryColumnIndex, h0]
    simp [mapHeaders, hok0, hmand, Bind.bind, Except.bind]
  · obtain ⟨i0, h0⟩ := getColumnIndex_isSome headings colID
      (hothers colID (by simp [mandatoryColumns]) (by decide))
    obtain ⟨i1, h1⟩ := getColumnIndex_isSome headings colName
      (hothers colName (by simp [mandatoryColumns]) (by decide))
    have hok0 : getMandatoryColumnIndex headings colID = .ok i0 := by
      rw [getMandatoryColumnIndex, h0]
    have hok1 : getMandatoryColumnIndex headings colName = .ok i1 := by
      rw [getMandatoryColumnIndex, h1]
    simp [mapHeaders, hok0, hok1, hmand, Bind.bind, Except.bind]
  · obtain ⟨i0, h0⟩ := getColumnIndex_isSome headings colID
      (hothers colID (by simp [mandatoryColumns]) (by decide))
    obtain ⟨i1, h1⟩ := getColumnIndex_isSome headings colName
      (hothers colName (by simp [mandatoryColumns]) (by decide))
    obtain ⟨i2, h2⟩ := getColumnIndex_isSome headings colDescription
      (hothers colDescription (by simp [mandatoryColumns]) (by decide))
    have hok0 : getMandatoryColumnIndex headings colID = .ok i0 := by
      rw [getMandatoryColumnIndex, h0]
    have hok1 : getMandatoryColumnIndex headings colName = .ok i1 := by
      rw [getMandatoryColumnIndex, h1]
    have hok2 : getMandatoryColumnIndex headings colDescription = .ok i2 := by
      rw [getMandatoryColumnIndex, h2]
    simp [mapHeaders, hok0, hok1, hok2, hmand, Bind.bind, Except.bind]

/-- C6.  The header scan resolves each sought name to the position of
the first header cell matching it after trimming, case-insensitively,
wherever that column sits; and a run whose headings lack exactly one
mandatory column dies on the error naming that column with an empty
effect trace: nothing is written and no network request is issued. -/
theorem claim_C6 (headings : List Str) :
    (∀ name m, getColumnIndex headings name = some m ↔
      (m < headings.length ∧ equalFold name (trimSpace (headings.getD m [])) = true ∧
        ∀ j, j < m → equalFold name (trimSpace (headings.getD j [])) = false))
    ∧ (∀ (rows : List (List Str)) (o : Oracles) (c : Str),
        2 ≤ rows.length → rows.headD [] = headings →
        c ∈ mandatoryColumns →
        (∀ d ∈ mandatoryColumns, d ≠ c →
          ∃ cell ∈ headings, equalFold d (trimSpace cell) = true) →
        (∀ cell ∈ headings, equalFold c (trimSpace cell) = false) →
        mainRun rows o = ([], some (.mapError (.missingColumn c)))) := by
  constructor
  · intro name m
    rw [getColumnIndex, getColumnIndexAux_some_iff]
    constructor
    · rintro ⟨i, rfl, hi, hm, hb⟩
      simp only [Nat.zero_add]
      exact ⟨hi, hm, hb⟩
    · rintro ⟨hi, hm, hb⟩
      exact ⟨m, by omega, hi, hm, hb⟩
  · intro rows o c h2 hh hmem hothers habsent
    have hmap := mapHeaders_missing headings c hmem hothers habsent
    rw [mainRun, if_neg (by omega), hh, hmap]

/-- A headings row missing the mandatory id column, with the other
three mandatory columns present (name padded and upper-case). -/
def headingsNoID : List Str :=
  [" NAME ".data, "description".data, "customs territories".data]

/-- A sheet built on the headings row that misses the id column. -/
def rowsNoID : List (List Str) :=
  [headingsNoID, ["w".data, "d".data, "no".data]]

/-- C6 witness: a padded upper-case header cell still resolves, and
the sheet missing the id column dies naming id with no effects. -/
theorem claim_C6_witness :
    getColumnIndex ["ID ".data, "name".data] colID = some 0
    ∧ mainRun rowsNoID oracleEmptyFetch = ([], some (.mapError (.missingColumn colID))) := by
  constructor
  · exact ((claim_C6 ["ID ".data, "name".data]).1 colID 0).mpr (by decide)
  · exact (claim_C6 headingsNoID).2 rowsNoID oracleEmptyFetch colID (by decide) rfl
      (by decide) (by decide) (by decide)

/-- Helper: a reconcile pass that finishes with no error found a row
for every fetched item. -/
theorem reconcileLoop_found (hdr : HeaderInfo) (rows : List (List Str)) :
    ∀ (items : List ImportItemResponse),
      (reconcileLoop hdr rows items).2 = none →
      ∀ item ∈ items, ∃ p, getRowByItemID rows hdr.iID item.id = some (some p) := by
  intro items
  induction items with
  | nil => intro _ item hmem; cases hmem
  | cons it rest ih =>
    intro h item hmem
    simp only [reconcileLoop] at h
    cases hri : reconcileItem hdr rows it with
    | error er => rw [hri] at h; simp at h
    | ok pr =>
      rw [hri] at h
      rcases List.mem_cons.mp hmem with rfl | hmem2
      · unfold reconcileItem at hri
        cases hg : getRowByItemID rows hdr.iID item.id with
        | none => rw [hg] at hri; simp at hri
        | some found =>
          cases found with
          | none => rw [hg] at hri; simp at hri
          | some p => exact ⟨p, rfl⟩
      · exact ih h item hmem2

/-- C4 counterexample: with every network call succeeding and a fetch
response containing no items at all, the run completes with no fatal
error although the input identifier A1 has no per-item result. -/
theorem counterexample_C4 :
    (mainRun rowsA oracleEmptyFetch).2 = none
    ∧ "A1".data ∈ rowsA.tail.map (fun r => r.getD 0 [])
    ∧ oracleEmptyFetch.fetchItems = [] := by
  refine ⟨rfl, by decide, rfl⟩

/-- C4 amended.  The reconciler checks the converse direction only:
in a run that completes without a fatal error, every per-item result
of the fetched response has a matching input row (found by the
id-column scan); an input identifier with no per-item result is left
without codes and the run still succeeds. -/
theorem claim_C4 (rows : List (List Str)) (o : Oracles)
    (h : (mainRun rows o).2 = none) :
    ∀ item ∈ o.fetchItems, ∃ hdr p, mapHeaders (rows.headD []) = .ok hdr ∧
      getRowByItemID rows hdr.iID item.id = some (some p) := by
  intro item hmem
  by_cases h2 : rows.length < 2
  · rw [mainRun, if_pos h2] at h; simp at h
  · cases hm : mapHeaders (rows.headD []) with
    | error me => simp only [mainRun, if_neg h2, hm] at h; simp at h
    | ok hdr =>
      cases hb : buildItems o.parseFloatOk hdr rows.tail with
      | error be => simp only [mainRun, if_neg h2, hm, hb] at h; simp at h
      | ok items =>
        simp only [mainRun, if_neg h2, hm, hb] at h
        by_cases hs : o.submitOk = false
        · rw [if_pos hs] at h; simp at h
        · rw [if_neg hs] at h
          cases hp : (waitForProcessing o.timeout o.statuses).2 with
          | failed => rw [hp] at h; simp at h
          | notProcessed last => rw [hp] at h; simp at h
          | processed =>
            rw [hp] at h
            by_cases hf : o.fetchOk = false
            · rw [if_pos hf] at h; simp at h
            · rw [if_neg hf] at h
              simp only at h
              cases hr : (reconcileLoop hdr rows o.fetchItems).2 with
              | some re => simp only [hr] at h; simp at h
              | none =>
                obtain ⟨p, hp2⟩ := reconcileLoop_found hdr rows o.fetchItems hr item hmem
                exact ⟨hdr, p, rfl, hp2⟩

/-- C4 witness: the amended statement at a successful run fetching the
single item A1. -/
theorem claim_C4_witness :
    ∃ hdr p, mapHeaders (rowsA.headD []) = .ok hdr ∧
      getRowByItemID rowsA hdr.iID itemA1.id = some (some p) :=
  claim_C4 rowsA oracleItemA1 rfl itemA1 (by simp [oracleItemA1])

/-- C8 counterexample: in a fully successful run, the extended
headings row is written to the spreadsheet as the very first effect,
before the submit, poll and fetch stages have run at all, refuting
that no header cell is written before all prior stages succeed. -/
theorem counterexample_C8 :
    (mainRun rowsA oracleItemA1).1.getD 0 Event.save = Event.writeHeadings
    ∧ (mainRun rowsA oracleItemA1).1.getD 1 Event.save = Event.submit
    ∧ (mainRun rowsA oracleItemA1).2 = none := by
  refine ⟨rfl, rfl, rfl⟩

/-- C8 amended.  Data rows are written only by the reconciler, after
the submit, poll and fetch stages all succeeded (every data-row write
comes after those three effects in the trace); the headings row,
however, is written once right after header mapping, before
submission. -/
theorem claim_C8 (rows : List (List Str)) (o : Oracles) :
    (∀ n, Event.writeRow n ∈ (mainRun rows o).1 →
      (mainRun rows o).1.take 4 =
        [Event.writeHeadings, Event.submit, Event.poll, Event.fetch])
    ∧ (Event.submit ∈ (mainRun rows o).1 →
        (mainRun rows o).1.headD Event.save = Event.writeHeadings) := by
  by_cases h2 : rows.length < 2
  · rw [mainRun, if_pos h2]
    exact ⟨fun n hn => by simp at hn, fun h => by simp at h⟩
  · cases hm : mapHeaders (rows.headD []) with
    | error me =>
      simp only [mainRun, if_neg h2, hm]
      exact ⟨fun n hn => by simp at hn, fun h => by simp at h⟩
    | ok hdr =>
      cases hb : buildItems o.parseFloatOk hdr rows.tail with
      | error be =>
        simp only [mainRun, if_neg h2, hm, hb]
        exact ⟨fun n hn => by simp at hn, fun h => by simp at h⟩
      | ok items =>
        simp only [mainRun, if_neg h2, hm, hb]
        by_cases hs : o.submitOk = false
        · rw [if_pos hs]
          exact ⟨fun n hn => by simp at hn, fun _ => rfl⟩
        · rw [if_neg hs]
          cases hp : (waitForProcessing o.timeout o.statuses).2 with
          | failed =>
            exact ⟨fun n hn => by simp at hn, fun _ => rfl⟩
          | notProcessed last =>
            exact ⟨fun n hn => by simp at hn, fun _ => rfl⟩
          | processed =>
            by_cases hf : o.fetchOk = false
            · rw [if_pos hf]
              exact ⟨fun n hn => by simp at hn, fun _ => rfl⟩
            · rw [if_neg hf]
              simp only
              cases hr : (reconcileLoop hdr rows o.fetchItems).2 with
              | some re =>
                simp only [hr]
                exact ⟨fun n _ => rfl, fun _ => rfl⟩
              | none =>
                simp only [hr]
                exact ⟨fun n _ => rfl, fun _ => rfl⟩

/-- C8 witness: the amended statement at the successful run fetching
the single item A1, whose trace writes the data row at excel row 2. -/
theorem claim_C8_witness :
    (mainRun rowsA oracleItemA1).1.take 4 =
      [Event.writeHeadings, Event.submit, Event.poll, Event.fetch]
    ∧ (mainRun rowsA oracleItemA1).1.headD Event.save = Event.writeHeadings :=
  ⟨(claim_C8 rowsA oracleItemA1).1 2 (by decide),
   (claim_C8 rowsA oracleItemA1).2 (by decide)⟩

end Customs
